import Mathlib

/-!
Verification development for the carpooling repository's invitation /
admission-control subsystem.

The definitions below are shallow embeddings of:
- the invitation-code schema (shared schema module, invitationCodes table and
  insertInvitationCodeSchema);
- the auth middleware isAuthenticated and the /api/login and /api/callback
  handlers (server/routes.ts, replitAuth section);
- the admin gate (server/admin.ts);
- the invitation policy evaluator and store operations, which have no
  implementation under src/ and are therefore modelled from the spec
  (sections 3, 4.1, 4.2), as indicated on each such definition.

JavaScript truthiness matters in several places (empty strings and the number
0 are falsy); the embedding reproduces those checks explicitly.
-/

/-- Full row of the invitation_codes table (shared schema module).
Timestamps are modelled as Int (epoch seconds); nullable columns as Option. -/
structure InvitationCodeRow where
  id : String
  code : String
  createdByUserId : String
  createdAt : Int
  revokedAt : Option Int
  usedByUserId : Option String
  usedAt : Option Int
  maxUses : Int
  currentUses : Int
  expiresAt : Option Int
  deriving Repr, DecidableEq

/-- Input accepted by insertInvitationCodeSchema: createInsertSchema on the
invitation_codes table with id, createdAt, revokedAt, usedByUserId, usedAt and
currentUses omitted.  code and createdByUserId are notNull columns, so
required; maxUses and expiresAt are optional (maxUses has a DB default of 1,
expiresAt is nullable). -/
structure InsertInvitationCodeInput where
  code : String
  createdByUserId : String
  maxUses : Option Int
  expiresAt : Option Int
  deriving Repr, DecidableEq

/-- insertInvitationCodeSchema validates only field presence and primitive
types, all of which the InsertInvitationCodeInput type already enforces; the
generated zod schema imposes no range constraint on maxUses. -/
def insertInvitationCodeSchemaAccepts (_input : InsertInvitationCodeInput) : Bool :=
  true

/-- Row produced by inserting an accepted input: omitted columns take their
schema defaults (currentUses 0, nullable columns NULL, maxUses 1 when not
supplied). -/
def insertInvitationCode (id : String) (now : Int)
    (input : InsertInvitationCodeInput) : InvitationCodeRow :=
  { id := id
    code := input.code
    createdByUserId := input.createdByUserId
    createdAt := now
    revokedAt := none
    usedByUserId := none
    usedAt := none
    maxUses := input.maxUses.getD 1
    currentUses := 0
    expiresAt := input.expiresAt }

/-- Classification returned by the invitation policy evaluator. -/
inductive InvitationStatus where
  | usable
  | revoked
  | expired
  | exhausted
  | notFound
  deriving Repr, DecidableEq

/-- Modelled from the spec: the evaluateInvitation decision of section 4.1
(the validation endpoint implementation is absent from src/).  First match
wins: not found, then revokedAt set, then expiresAt set with
expiresAt <= now, then currentUses >= maxUses, else usable. -/
def evaluateInvitation (rec : Option InvitationCodeRow) (now : Int) :
    InvitationStatus :=
  match rec with
  | none => .notFound
  | some r =>
    if r.revokedAt.isSome then .revoked
    else if (match r.expiresAt with
             | some e => decide (e ≤ now)
             | none => false) then .expired
    else if r.maxUses ≤ r.currentUses then .exhausted
    else .usable

/-- Modelled from the spec: Invitation Store revoke, section 4.2 (no store
implementation under src/).  Sets revokedAt to now, idempotently: revoking an
already revoked record is a no-op. -/
def revokeInvitation (now : Int) (r : InvitationCodeRow) : InvitationCodeRow :=
  match r.revokedAt with
  | some _ => r
  | none => { r with revokedAt := some now }

/-- Modelled from the spec: Invitation Store redeem, section 4.2 (no store
implementation under src/).  Atomically increments currentUses by one, but at
most maxUses redemptions ever succeed (the hard invariant of 4.2); a failed
redemption leaves every field untouched (section 7).  The first successful
redemption also records usedByUserId and usedAt. -/
def redeemInvitation (userId : String) (now : Int) (r : InvitationCodeRow) :
    Option InvitationCodeRow :=
  if r.currentUses < r.maxUses then
    some { r with
            currentUses := r.currentUses + 1
            usedByUserId := if r.currentUses = 0 then some userId else r.usedByUserId
            usedAt := if r.currentUses = 0 then some now else r.usedAt }
  else
    none

/-- States of an invitation record reachable through the store operations:
created (with the spec's creation precondition maxUses >= 1, section 3) and
closed under successful redemption and revocation. -/
inductive ReachableInvitation : InvitationCodeRow → Prop where
  | create (id : String) (now : Int) (input : InsertInvitationCodeInput)
      (hmax : 1 ≤ (insertInvitationCode id now input).maxUses) :
      ReachableInvitation (insertInvitationCode id now input)
  | redeem (r r' : InvitationCodeRow) (userId : String) (now : Int)
      (hr : ReachableInvitation r)
      (hstep : redeemInvitation userId now r = some r') :
      ReachableInvitation r'
  | revoke (r : InvitationCodeRow) (now : Int) (hr : ReachableInvitation r) :
      ReachableInvitation (revokeInvitation now r)

/-- Truthiness of an optional JS number: undefined and 0 are falsy. -/
def jsTruthyInt : Option Int → Bool
  | none => false
  | some n => n != 0

/-- Truthiness of an optional JS string: undefined and the empty string are
falsy. -/
def jsTruthyStr : Option String → Bool
  | none => false
  | some s => s != ""

/-- The req.user object consulted by the isAuthenticated middleware
(claims.exp copied to expires_at; refresh_token from the token response). -/
structure SessionUser where
  expires_at : Option Int
  refresh_token : Option String
  deriving Repr, DecidableEq

/-- Outcome of the isAuthenticated middleware: call next(), reply
401 {message: Unauthorized}, or reply 403 {message: Invitation code required,
requiresInvitationCode: true}. -/
inductive AuthGateResult where
  | callNext
  | unauthorized401
  | invitationRequired403
  deriving Repr, DecidableEq

/-- The isAuthenticated middleware of server/routes.ts: 401 unless
req.isAuthenticated() and user?.expires_at is truthy; then the
requiresInvitationCode session flag blocks everything except
POST /api/invitations/validate with the 403 invitation-required reply; then
the token is accepted while now <= expires_at, otherwise a refresh is
attempted when a (truthy) refresh token exists, and 401 results when none
exists or the refresh fails. -/
def isAuthenticatedMW (loggedIn : Bool) (user : Option SessionUser)
    (requiresInvitationCode : Bool) (path method : String)
    (now : Int) (refreshSucceeds : Bool) : AuthGateResult :=
  match user with
  | none => .unauthorized401
  | some u =>
    match u.expires_at with
    | none => .unauthorized401
    | some e =>
      if !loggedIn || e == 0 then .unauthorized401
      else if requiresInvitationCode
          && !(path == "/api/invitations/validate" && method == "POST") then
        .invitationRequired403
      else if now ≤ e then .callNext
      else if !jsTruthyStr u.refresh_token then .unauthorized401
      else if refreshSucceeds then .callNext
      else .unauthorized401

/-- server/admin.ts getAdminUserId: process.env.ADMIN_USER_ID ?? "48270256"
(the nullish coalescing keeps an empty-string value). -/
def getAdminUserId (envAdminUserId : Option String) : String :=
  envAdminUserId.getD "48270256"

/-- server/admin.ts isAdmin: a falsy userId (undefined or empty) is never
admin; otherwise strict equality with the configured admin user id. -/
def isAdmin (envAdminUserId : Option String) (userId : Option String) : Bool :=
  match userId with
  | none => false
  | some u => if u == "" then false else u == getAdminUserId envAdminUserId

/-- req.user as seen by requireAdmin: only claims.sub is consulted. -/
structure AdminReqUser where
  claims_sub : Option String
  deriving Repr, DecidableEq

/-- Outcome of requireAdmin: next(), 401 {Authentication required} or
403 {Admin privileges required}. -/
inductive AdminGateResult where
  | callNext
  | authRequired401
  | adminRequired403
  deriving Repr, DecidableEq

/-- server/admin.ts requireAdmin: 401 without req.user, 403 unless
isAdmin(req.user.claims.sub). -/
def requireAdmin (envAdminUserId : Option String)
    (user : Option AdminReqUser) : AdminGateResult :=
  match user with
  | none => .authRequired401
  | some u =>
    if isAdmin envAdminUserId u.claims_sub then .callNext
    else .adminRequired403

/-- JS String.prototype.split with a one-character separator: the list of
(possibly empty) segments between occurrences of the separator. -/
def splitOnChar (sep : Char) : List Char → List (List Char)
  | [] => [[]]
  | c :: cs =>
    let rest := splitOnChar sep cs
    if c = sep then [] :: rest
    else
      match rest with
      | [] => [[c]]
      | r :: rs => (c :: r) :: rs

/-- email.split("@") as the verify callback performs it. -/
def jsSplitAtSign (email : String) : List String :=
  (splitOnChar '@' email.data).map String.mk

/-- JS toLowerCase restricted to the ASCII range (all that the domain
comparison needs). -/
def jsToLowerCase (s : String) : String :=
  String.mk (s.data.map Char.toLower)

/-- The domain string the verify callback compares against the allow-list:
email.split("@")[1]?.toLowerCase() — the segment after the FIRST '@'
(undefined when the email has no '@'). -/
def emailDomainJS (email : String) : Option String :=
  ((jsSplitAtSign email)[1]?).map jsToLowerCase

/-- The domain as the spec's words describe it (refinement model, for
comparison with emailDomainJS): the substring after the LAST '@' of the
email, lower-cased; undefined when the email has no '@'. -/
def specEmailDomainAfterLastAt (email : String) : Option String :=
  if email.data.contains '@' then
    (jsSplitAtSign email).getLast?.map jsToLowerCase
  else none

/-- Value of the oauth_restrictions setting; both fields may be absent. -/
structure OAuthRestrictions where
  allowedDomains : Option (List String)
  allowedGitHubOrgs : Option (List String)
  deriving Repr, DecidableEq

/-- The domain restriction test of the verify callback in server/routes.ts:
with no stored setting, or no allowedDomains, or an empty list, every login
passes; otherwise the login passes iff the extracted email domain equals some
entry lower-cased (an email without '@' never matches). -/
def domainCheckAllows (restrictionsValue : Option OAuthRestrictions)
    (email : String) : Bool :=
  match restrictionsValue with
  | none => true
  | some r =>
    match r.allowedDomains with
    | none => true
    | some [] => true
    | some ds =>
      match emailDomainJS email with
      | none => false
      | some d => ds.any (fun dom => d == jsToLowerCase dom)

/-- Token claims consulted by the verify callback. -/
structure OidcClaims where
  sub : String
  email : String
  exp : Int
  deriving Repr, DecidableEq

/-- Observable outcome of one run of the verify callback. -/
structure VerifyOutcome where
  loginSucceeded : Bool
  upsertedUser : Bool
  sessionUserBuilt : Bool
  deriving Repr, DecidableEq

/-- The verify callback of server/routes.ts: fail when the token carries no
claims; fail on a denied domain BEFORE building the session user object and
BEFORE storage.upsertUser — this runs on every login; otherwise build the
session user, upsert the user row and report success. -/
def verifyCallback (claims : Option OidcClaims)
    (restrictionsValue : Option OAuthRestrictions) : VerifyOutcome :=
  match claims with
  | none => ⟨false, false, false⟩
  | some c =>
    if domainCheckAllows restrictionsValue c.email then ⟨true, true, true⟩
    else ⟨false, false, false⟩

/-- What passport hands the /api/callback route handler: a user on success,
nothing on error or verification failure. -/
def authUserOfVerify (v : VerifyOutcome) : Option Unit :=
  if v.loginSucceeded then some () else none

/-- Code points JS encodeURIComponent leaves unescaped besides ASCII
alphanumerics: - _ . ! ~ * apostrophe ( ). -/
def uriUnreservedMarks : List Nat := [45, 95, 46, 33, 126, 42, 39, 40, 41]

/-- Whether encodeURIComponent leaves the character as is. -/
def isUriUnreserved (c : Char) : Bool :=
  c.isAlphanum || uriUnreservedMarks.contains c.toNat

/-- Upper-case hexadecimal digit for a value below 16. -/
def hexDigitChar (n : Nat) : Char :=
  if n < 10 then Char.ofNat (48 + n) else Char.ofNat (55 + n)

/-- UTF-8 bytes of a character, as natural numbers. -/
def utf8ByteCodes (c : Char) : List Nat :=
  let n := c.toNat
  if n < 128 then [n]
  else if n < 2048 then [192 + n / 64, 128 + n % 64]
  else if n < 65536 then [224 + n / 4096, 128 + (n / 64) % 64, 128 + n % 64]
  else [240 + n / 262144, 128 + (n / 4096) % 64, 128 + (n / 64) % 64,
        128 + n % 64]

/-- Percent-escape of one byte. -/
def percentEncodeByte (b : Nat) : List Char :=
  ['%', hexDigitChar (b / 16), hexDigitChar (b % 16)]

/-- JS encodeURIComponent: unreserved characters survive, every other
character is percent-escaped byte by byte in UTF-8. -/
def encodeURIComponent (s : String) : String :=
  String.mk (s.data.foldr
    (fun c acc =>
      (if isUriUnreserved c then [c]
       else (utf8ByteCodes c).foldr (fun b bs => percentEncodeByte b ++ bs) [])
      ++ acc)
    [])

/-- The ephemeral invitation flags carried by the express session. -/
structure AppSession where
  pendingInvitation : Bool
  invitationCode : Option String
  requiresInvitationCode : Bool
  deriving Repr, DecidableEq

/-- A session with none of the invitation flags set. -/
def AppSession.initial : AppSession :=
  ⟨false, none, false⟩

/-- Responses the login and callback handlers can produce: an HTTP redirect
(res.redirect defaults to status 302) or the passport.authenticate redirect
to the identity provider. -/
inductive HttpResponse where
  | redirect (status : Nat) (location : String)
  | oauthRedirectToProvider
  deriving Repr, DecidableEq

/-- The GET /api/login handler of server/routes.ts: when the invitation query
parameter is the string true, set session.pendingInvitation and, when a
truthy code parameter is present, store it in session.invitationCode; both
branches then hand off to passport.authenticate, which redirects to the
identity provider. -/
def loginHandler (invitationParam codeParam : Option String)
    (s : AppSession) : AppSession × HttpResponse :=
  if invitationParam == some "true" then
    let s1 := { s with pendingInvitation := true }
    let s2 :=
      match codeParam with
      | some c => if c != "" then { s1 with invitationCode := some c } else s1
      | none => s1
    (s2, .oauthRedirectToProvider)
  else
    (s, .oauthRedirectToProvider)

/-- The GET /api/callback handler of server/routes.ts: on a verification
error or missing user, redirect to /api/login; after a successful login with
session.pendingInvitation set, delete that flag, set
session.requiresInvitationCode and redirect to /complete-invitation (with a
code query parameter when a truthy session.invitationCode exists); otherwise
redirect to /. -/
def callbackHandler (authUser : Option Unit) (s : AppSession) :
    AppSession × HttpResponse :=
  match authUser with
  | none => (s, .redirect 302 "/api/login")
  | some _ =>
    if s.pendingInvitation then
      let s1 := { s with pendingInvitation := false,
                         requiresInvitationCode := true }
      match s1.invitationCode with
      | some c =>
        if c != "" then
          (s1, .redirect 302 ("/complete-invitation?code=" ++ encodeURIComponent c))
        else
          (s1, .redirect 302 "/complete-invitation")
      | none => (s1, .redirect 302 "/complete-invitation")
    else
      (s, .redirect 302 "/")

/-- C2: evaluateInvitation classifies a record against now by first match
among: not found, revokedAt set, expiresAt set with expiresAt <= now,
currentUses >= maxUses, else usable; at exact equality expiresAt = now the
result is expired, and the classification is a function of the record and
now alone. -/
theorem evaluateInvitation_spec (r : InvitationCodeRow) (now : Int) :
    evaluateInvitation none now = .notFound
    ∧ (∀ t, r.revokedAt = some t →
        evaluateInvitation (some r) now = .revoked)
    ∧ (r.revokedAt = none → ∀ e, r.expiresAt = some e → e ≤ now →
        evaluateInvitation (some r) now = .expired)
    ∧ (r.revokedAt = none → r.expiresAt = some now →
        evaluateInvitation (some r) now = .expired)
    ∧ (r.revokedAt = none →
        (r.expiresAt = none ∨ ∃ e, r.expiresAt = some e ∧ now < e) →
        r.maxUses ≤ r.currentUses →
        evaluateInvitation (some r) now = .exhausted)
    ∧ (r.revokedAt = none →
        (r.expiresAt = none ∨ ∃ e, r.expiresAt = some e ∧ now < e) →
        r.currentUses < r.maxUses →
        evaluateInvitation (some r) now = .usable)
    ∧ (∀ now2, now = now2 →
        evaluateInvitation (some r) now = evaluateInvitation (some r) now2) := by
  refine ⟨rfl, ?_, ?_, ?_, ?_, ?_, ?_⟩
  · intro t ht
    simp [evaluateInvitation, ht]
  · intro hrev e he hle
    simp [evaluateInvitation, hrev, he, hle]
  · intro hrev he
    simp [evaluateInvitation, hrev, he]
  · intro hrev hexp huses
    rcases hexp with he | ⟨e, he, hlt⟩
    · simp [evaluateInvitation, hrev, he, huses]
    · simp [evaluateInvitation, hrev, he, not_le.mpr hlt, huses]
  · intro hrev hexp huses
    rcases hexp with he | ⟨e, he, hlt⟩
    · simp [evaluateInvitation, hrev, he, not_le.mpr huses]
    · simp [evaluateInvitation, hrev, he, not_le.mpr hlt, not_le.mpr huses]
  · intro now2 h
    rw [h]

/-- Witness for evaluateInvitation_spec: a found, unrevoked record whose
expiry equals now is classified expired. -/
theorem evaluateInvitation_spec_witness :
    evaluateInvitation
      (some ⟨"i", "C", "u", 0, none, none, none, 1, 0, some 5⟩) 5
      = .expired :=
  (evaluateInvitation_spec ⟨"i", "C", "u", 0, none, none, none, 1, 0, some 5⟩
    5).2.2.2.1 rfl rfl

/-- C3: every invitation record reachable through create, redeem and revoke
satisfies 0 <= currentUses <= maxUses; currentUses starts at 0 at creation
and no operation ever decreases it. -/
theorem invitation_uses_invariant :
    (∀ r, ReachableInvitation r →
      0 ≤ r.currentUses ∧ r.currentUses ≤ r.maxUses)
    ∧ (∀ id now input, (insertInvitationCode id now input).currentUses = 0)
    ∧ (∀ userId now r r', redeemInvitation userId now r = some r' →
        r.currentUses ≤ r'.currentUses)
    ∧ (∀ now r, (revokeInvitation now r).currentUses = r.currentUses) := by
  refine ⟨?_, ?_, ?_, ?_⟩
  · intro r h
    induction h with
    | create id now input hmax =>
      refine ⟨le_refl 0, ?_⟩
      simp [insertInvitationCode] at hmax ⊢
      omega
    | redeem r r' userId now hr hstep ih =>
      unfold redeemInvitation at hstep
      by_cases hlt : r.currentUses < r.maxUses
      · rw [if_pos hlt] at hstep
        cases hstep
        obtain ⟨ih1, ih2⟩ := ih
        refine ⟨?_, ?_⟩ <;> simp <;> omega
      · rw [if_neg hlt] at hstep
        exact absurd hstep (by simp)
    | revoke r now hr ih =>
      unfold revokeInvitation
      cases hrv : r.revokedAt with
      | none => simpa using ih
      | some t => simpa using ih
  · intro id now input
    rfl
  · intro userId now r r' hstep
    unfold redeemInvitation at hstep
    by_cases hlt : r.currentUses < r.maxUses
    · rw [if_pos hlt] at hstep
      cases hstep
      simp
    · rw [if_neg hlt] at hstep
      exact absurd hstep (by simp)
  · intro now r
    unfold revokeInvitation
    cases hrv : r.revokedAt <;> rfl

/-- Witness for invitation_uses_invariant: a two-use code created and then
redeemed once satisfies the bounds. -/
theorem invitation_uses_invariant_witness :
    0 ≤ (⟨"i", "C", "u", 0, none, some "u2", some 7, 2, 1, none⟩ :
          InvitationCodeRow).currentUses
    ∧ (⟨"i", "C", "u", 0, none, some "u2", some 7, 2, 1, none⟩ :
          InvitationCodeRow).currentUses
      ≤ (⟨"i", "C", "u", 0, none, some "u2", some 7, 2, 1, none⟩ :
          InvitationCodeRow).maxUses :=
  invitation_uses_invariant.1 _
    (ReachableInvitation.redeem _ _ "u2" 7
      (ReachableInvitation.create "i" 0 ⟨"C", "u", some 2, none⟩ (by decide))
      (by decide))

/-- C8 counterexample: the insert schema accepts maxUses = 0 (it carries no
range constraint), and the resulting record violates maxUses >= 1. -/
theorem insertInvitationCode_maxUses_zero_accepted :
    insertInvitationCodeSchemaAccepts ⟨"CODE", "admin", some 0, none⟩ = true
    ∧ (insertInvitationCode "id1" 0 ⟨"CODE", "admin", some 0, none⟩).maxUses
        = 0
    ∧ ¬ (1 ≤ (insertInvitationCode "id1" 0
          ⟨"CODE", "admin", some 0, none⟩).maxUses) := by
  decide

/-- C8 amended: a newly created record has currentUses = 0 and no revokedAt,
usedByUserId or usedAt (the insert schema excludes them from input), and
maxUses defaults to 1 when not supplied and is taken verbatim when supplied;
the schema does not enforce maxUses >= 1. -/
theorem insertInvitationCode_defaults (id : String) (now : Int)
    (input : InsertInvitationCodeInput) :
    (insertInvitationCode id now input).currentUses = 0
    ∧ (insertInvitationCode id now input).revokedAt = none
    ∧ (insertInvitationCode id now input).usedByUserId = none
    ∧ (insertInvitationCode id now input).usedAt = none
    ∧ (input.maxUses = none → (insertInvitationCode id now input).maxUses = 1)
    ∧ (∀ m, input.maxUses = some m →
        (insertInvitationCode id now input).maxUses = m) := by
  refine ⟨rfl, rfl, rfl, rfl, ?_, ?_⟩
  · intro h
    simp [insertInvitationCode, h]
  · intro m h
    simp [insertInvitationCode, h]

/-- Witness for insertInvitationCode_defaults: with no maxUses supplied the
created record gets maxUses 1. -/
theorem insertInvitationCode_defaults_witness :
    (insertInvitationCode "id1" 0 ⟨"CODE", "admin", none, none⟩).maxUses
      = 1 :=
  (insertInvitationCode_defaults "id1" 0
    ⟨"CODE", "admin", none, none⟩).2.2.2.2.1 rfl

/-- Helper: with the pending flag set and a request that is not
POST /api/invitations/validate, the gate answers 403 (shared by the C1 and
C9 theorems). -/
theorem pending_block_of_not_validate (u : SessionUser) (e : Int)
    (path method : String) (now : Int) (refreshSucceeds : Bool)
    (hexp : u.expires_at = some e) (hnz : e ≠ 0)
    (hnv : ¬ (path = "/api/invitations/validate" ∧ method = "POST")) :
    isAuthenticatedMW true (some u) true path method now refreshSucceeds
      = .invitationRequired403 := by
  have hb : (path == "/api/invitations/validate" && method == "POST")
      = false := by
    rcases Bool.eq_false_or_eq_true
        (path == "/api/invitations/validate" && method == "POST") with
      hb | hb
    · exact absurd (by simpa using hb) hnv
    · exact hb
  simp [isAuthenticatedMW, hexp, hnz, hb]

/-- C1: for an authenticated request (logged in, truthy expires_at) whose
session carries requiresInvitationCode, the gate answers the 403
invitation-required reply (whose body carries requiresInvitationCode: true)
for every operation except POST /api/invitations/validate, and that
operation is the only one that can pass the gate while pending. -/
theorem pending_gate_blocks_all_but_validate (u : SessionUser) (e : Int)
    (path method : String) (now : Int) (refreshSucceeds : Bool)
    (hexp : u.expires_at = some e) (hnz : e ≠ 0) :
    (¬ (path = "/api/invitations/validate" ∧ method = "POST") →
      isAuthenticatedMW true (some u) true path method now refreshSucceeds
        = .invitationRequired403)
    ∧ (isAuthenticatedMW true (some u) true path method now refreshSucceeds
        = .callNext →
      path = "/api/invitations/validate" ∧ method = "POST") := by
  constructor
  · exact pending_block_of_not_validate u e path method now refreshSucceeds
      hexp hnz
  · intro hnext
    by_contra hnv
    have hres := pending_block_of_not_validate u e path method now
      refreshSucceeds hexp hnz hnv
    rw [hres] at hnext
    exact absurd hnext (by simp)

/-- Witness for pending_gate_blocks_all_but_validate: a pending session
asking for GET /api/trips is answered 403. -/
theorem pending_gate_blocks_all_but_validate_witness :
    isAuthenticatedMW true (some ⟨some 100, none⟩) true "/api/trips" "GET"
      0 false = .invitationRequired403 :=
  (pending_gate_blocks_all_but_validate ⟨some 100, none⟩ 100 "/api/trips"
    "GET" 0 false rfl (by decide)).1 (by decide)

/-- C9: the pending-invitation check precedes the token-expiry check (a
pending session gets 403 even with an expired token); for non-pending
sessions the request passes while now <= expires_at (boundary inclusive); a
refresh is attempted only past expiry with a (truthy) refresh token present,
succeeding refreshes admit the request and a missing refresh token or a
failed refresh gives 401. -/
theorem auth_gate_expiry_refresh (u : SessionUser) (e : Int)
    (path method : String) (now : Int) (rs : Bool)
    (hexp : u.expires_at = some e) (hnz : e ≠ 0) :
    (e < now → ¬ (path = "/api/invitations/validate" ∧ method = "POST") →
      isAuthenticatedMW true (some u) true path method now rs
        = .invitationRequired403)
    ∧ (now ≤ e →
      isAuthenticatedMW true (some u) false path method now rs = .callNext)
    ∧ (e < now → u.refresh_token = none →
      isAuthenticatedMW true (some u) false path method now rs
        = .unauthorized401)
    ∧ (∀ t, e < now → u.refresh_token = some t → t ≠ "" → rs = true →
      isAuthenticatedMW true (some u) false path method now rs = .callNext)
    ∧ (∀ t, e < now → u.refresh_token = some t → t ≠ "" → rs = false →
      isAuthenticatedMW true (some u) false path method now rs
        = .unauthorized401) := by
  refine ⟨?_, ?_, ?_, ?_, ?_⟩
  · intro hlt hnv
    exact pending_block_of_not_validate u e path method now rs hexp hnz hnv
  · intro hle
    simp [isAuthenticatedMW, hexp, hnz, hle]
  · intro hlt hrt
    simp [isAuthenticatedMW, hexp, hnz, not_le.mpr hlt, jsTruthyStr, hrt]
  · intro t hlt hrt hne hrs
    simp [isAuthenticatedMW, hexp, hnz, not_le.mpr hlt, jsTruthyStr, hrt,
      hne, hrs]
  · intro t hlt hrt hne hrs
    simp [isAuthenticatedMW, hexp, hnz, not_le.mpr hlt, jsTruthyStr, hrt,
      hne, hrs]

/-- Witness for auth_gate_expiry_refresh: at the boundary now = expires_at a
non-pending request passes. -/
theorem auth_gate_expiry_refresh_witness :
    isAuthenticatedMW true (some ⟨some 100, none⟩) false "/api/trips" "GET"
      100 false = .callNext :=
  (auth_gate_expiry_refresh ⟨some 100, none⟩ 100 "/api/trips" "GET" 100
    false rfl (by decide)).2.1 (by decide)

/-- C10 counterexample: with ADMIN_USER_ID set to the empty string and a
request whose claims.sub is the empty string, sub equals the configured
admin id yet requireAdmin answers 403, because isAdmin rejects every falsy
userId before comparing. -/
theorem requireAdmin_empty_admin_id_denied :
    getAdminUserId (some "") = ""
    ∧ (⟨some ""⟩ : AdminReqUser).claims_sub = some (getAdminUserId (some ""))
    ∧ requireAdmin (some "") (some ⟨some ""⟩) ≠ .callNext
    ∧ requireAdmin (some "") (some ⟨some ""⟩) = .adminRequired403 := by
  decide

/-- C10 amended: requireAdmin admits a request iff req.user is present and
its claims.sub is a non-empty string equal to the admin user id (the
ADMIN_USER_ID environment variable, defaulting to 48270256 when unset); a
missing req.user yields 401, every other user yields 403. -/
theorem requireAdmin_spec (env : Option String) (user : Option AdminReqUser) :
    (requireAdmin env user = .callNext ↔
      ∃ u s, user = some u ∧ u.claims_sub = some s ∧ s ≠ ""
        ∧ s = getAdminUserId env)
    ∧ (user = none → requireAdmin env user = .authRequired401)
    ∧ (∀ u, user = some u → requireAdmin env user ≠ .callNext →
        requireAdmin env user = .adminRequired403)
    ∧ (env = none → getAdminUserId env = "48270256") := by
  refine ⟨?_, ?_, ?_, ?_⟩
  · constructor
    · intro h
      match user with
      | none => exact absurd h (by simp [requireAdmin])
      | some u =>
        match hs : u.claims_sub with
        | none =>
          rw [requireAdmin] at h
          simp [isAdmin, hs] at h
        | some s =>
          refine ⟨u, s, rfl, hs, ?_, ?_⟩
          · intro hse
            rw [requireAdmin] at h
            simp [isAdmin, hs, hse] at h
          · rw [requireAdmin] at h
            by_cases hadm : isAdmin env u.claims_sub = true
            · simp only [isAdmin, hs] at hadm
              by_cases hse : s = ""
              · simp [hse] at hadm
              · simpa [hse] using hadm
            · simp [Bool.not_eq_true] at hadm
              rw [if_neg (by simp [hadm])] at h
              exact absurd h (by simp)
    · rintro ⟨u, s, hu, hs, hne, heq⟩
      rw [hu, requireAdmin]
      simp [isAdmin, hs, hne, heq]
      rw [← heq]
      exact hne
  · intro h
    rw [h, requireAdmin]
  · intro u hu hne
    rw [hu, requireAdmin] at hne ⊢
    by_cases hadm : isAdmin env u.claims_sub = true
    · rw [if_pos hadm] at hne
      exact absurd rfl hne
    · rw [if_neg hadm]
  · intro h
    rw [h]
    rfl

/-- Witness for requireAdmin_spec: with ADMIN_USER_ID unset, the default
admin user 48270256 is admitted. -/
theorem requireAdmin_spec_witness :
    requireAdmin none (some ⟨some "48270256"⟩) = .callNext :=
  (requireAdmin_spec none (some ⟨some "48270256"⟩)).1.mpr
    ⟨⟨some "48270256"⟩, "48270256", rfl, rfl, by decide, rfl⟩

/-- C4: a login denied by the domain check makes the verify callback fail
without building a session user and without upserting any user row, and the
/api/callback handler then redirects 302 to /api/login leaving the session
untouched; the user row is upserted only on logins that passed the domain
check, which the verify callback runs on every login. -/
theorem domain_denied_login_fails (c : OidcClaims)
    (restr : Option OAuthRestrictions) (s : AppSession)
    (hdeny : domainCheckAllows restr c.email = false) :
    verifyCallback (some c) restr = ⟨false, false, false⟩
    ∧ (verifyCallback (some c) restr).upsertedUser = false
    ∧ (verifyCallback (some c) restr).sessionUserBuilt = false
    ∧ callbackHandler (authUserOfVerify (verifyCallback (some c) restr)) s
        = (s, .redirect 302 "/api/login")
    ∧ (∀ c2 : OidcClaims, ∀ r2,
        (verifyCallback (some c2) r2).upsertedUser = true →
        domainCheckAllows r2 c2.email = true) := by
  have hv : verifyCallback (some c) restr = ⟨false, false, false⟩ := by
    simp [verifyCallback, hdeny]
  refine ⟨hv, by rw [hv], by rw [hv], ?_, ?_⟩
  · rw [hv]
    rfl
  · intro c2 r2 h
    rw [verifyCallback] at h
    by_cases hd : domainCheckAllows r2 c2.email = true
    · exact hd
    · rw [if_neg hd] at h
      exact absurd h (by simp)

/-- Witness for domain_denied_login_fails: a login from user@other.com with
only acme.com allowed is bounced to /api/login with no upsert. -/
theorem domain_denied_login_fails_witness :
    callbackHandler
      (authUserOfVerify (verifyCallback
        (some ⟨"sub1", "user@other.com", 100⟩)
        (some ⟨some ["acme.com"], none⟩)))
      AppSession.initial
      = (AppSession.initial, .redirect 302 "/api/login") :=
  (domain_denied_login_fails ⟨"sub1", "user@other.com", 100⟩
    (some ⟨some ["acme.com"], none⟩) AppSession.initial (by decide)).2.2.2.1

/-- C5: with no stored restriction setting, a missing allowedDomains field
or an empty list every login passes the domain check; with a non-empty list
a single-at email passes iff its domain equals some entry case-insensitively
(lower-cased comparison on both sides); user@ACME.COM passes against
acme.com and user@other.com does not. -/
theorem domain_restriction_decision (r : OAuthRestrictions)
    (ds : List String) (email localPart domain : String) :
    (∀ e2, domainCheckAllows none e2 = true)
    ∧ (r.allowedDomains = none → domainCheckAllows (some r) email = true)
    ∧ (r.allowedDomains = some [] → domainCheckAllows (some r) email = true)
    ∧ (r.allowedDomains = some ds → ds ≠ [] →
        jsSplitAtSign email = [localPart, domain] →
        (domainCheckAllows (some r) email = true ↔
          ∃ dm ∈ ds, jsToLowerCase domain = jsToLowerCase dm))
    ∧ domainCheckAllows (some ⟨some ["acme.com"], none⟩) "user@ACME.COM"
        = true
    ∧ domainCheckAllows (some ⟨some ["acme.com"], none⟩) "user@other.com"
        = false := by
  refine ⟨?_, ?_, ?_, ?_, by decide, by decide⟩
  · intro e2
    rfl
  · intro h
    simp [domainCheckAllows, h]
  · intro h
    simp [domainCheckAllows, h]
  · intro had hne hsplit
    have hdom : emailDomainJS email = some (jsToLowerCase domain) := by
      rw [emailDomainJS, hsplit]
      rfl
    match ds, hne with
    | d :: ds2, _ =>
      rw [domainCheckAllows, had, hdom]
      simp only [List.any_eq_true, beq_iff_eq]

/-- Witness for domain_restriction_decision: the case-insensitive match of
user@ACME.COM against the entry acme.com, via the iff. -/
theorem domain_restriction_decision_witness :
    domainCheckAllows (some ⟨some ["acme.com"], none⟩) "user@ACME.COM"
      = true :=
  ((domain_restriction_decision ⟨some ["acme.com"], none⟩ ["acme.com"]
      "user@ACME.COM" "user" "ACME.COM").2.2.2.1 rfl (by decide)
      (by decide)).mpr
    ⟨"acme.com", by decide, by decide⟩

/-- C6 counterexample: for a@b@c.com the code compares the segment after
the FIRST at sign (b), not the substring after the last one (c.com), and
the difference is observable: the email is denied against an allow-list
containing exactly c.com. -/
theorem emailDomain_first_not_last_at :
    emailDomainJS "a@b@c.com" = some "b"
    ∧ specEmailDomainAfterLastAt "a@b@c.com" = some "c.com"
    ∧ emailDomainJS "a@b@c.com" ≠ specEmailDomainAfterLastAt "a@b@c.com"
    ∧ domainCheckAllows (some ⟨some ["c.com"], none⟩) "a@b@c.com"
        = false := by
  decide

/-- C6 amended: the compared domain is the second at-separated segment of
the email (the substring after the FIRST at sign), lower-cased; for an
email containing exactly one at sign this coincides with the substring
after the last at sign. -/
theorem emailDomainJS_second_segment (email localPart domain : String)
    (h2 : jsSplitAtSign email = [localPart, domain])
    (hc : email.data.contains '@' = true) :
    emailDomainJS email = some (jsToLowerCase domain)
    ∧ emailDomainJS email = specEmailDomainAfterLastAt email := by
  constructor
  · rw [emailDomainJS, h2]
    rfl
  · rw [emailDomainJS, specEmailDomainAfterLastAt, hc, if_pos rfl, h2]
    rfl

/-- Witness for emailDomainJS_second_segment at user@acme.com. -/
theorem emailDomainJS_second_segment_witness :
    emailDomainJS "user@acme.com" = some "acme.com"
    ∧ emailDomainJS "user@acme.com"
        = specEmailDomainAfterLastAt "user@acme.com" :=
  emailDomainJS_second_segment "user@acme.com" "user" "acme.com"
    (by decide) (by decide)

/-- C7 counterexample: a login with invitation=true and an empty code
parameter sets the pending flag but stores no invitation code (the code
branch checks truthiness, and an empty string is falsy), so the session does
not hold invitationCode = the supplied empty string; the subsequent
successful callback therefore redirects to /complete-invitation without a
code parameter. -/
theorem login_empty_code_not_stored :
    ((loginHandler (some "true") (some "") AppSession.initial).1).pendingInvitation = true
    ∧ ((loginHandler (some "true") (some "") AppSession.initial).1).invitationCode ≠ some ""
    ∧ ((loginHandler (some "true") (some "") AppSession.initial).1).invitationCode = none
    ∧ (callbackHandler (some ())
        (loginHandler (some "true") (some "") AppSession.initial).1).2
        = .redirect 302 "/complete-invitation" := by
  decide

/-- C7 amended: GET /api/login with invitation=true sets
pendingInvitation (storing invitationCode=X only for a non-empty supplied
code) before handing off to the provider redirect; a successful callback on
a pending session deletes pendingInvitation, sets requiresInvitationCode and
redirects 302 to /complete-invitation?code=X when a non-empty code was
stored and to /complete-invitation otherwise; a callback for a
non-invitation login redirects 302 to /. -/
theorem invitation_login_flow (c : String) (s : AppSession) (hc : c ≠ "") :
    (loginHandler (some "true") (some c) s).1.pendingInvitation = true
    ∧ (loginHandler (some "true") (some c) s).1.invitationCode = some c
    ∧ (loginHandler (some "true") (some c) s).2 = .oauthRedirectToProvider
    ∧ (loginHandler (some "true") none s).1.pendingInvitation = true
    ∧ (loginHandler (some "true") none s).1.invitationCode
        = s.invitationCode
    ∧ (∀ s1 : AppSession, s1.pendingInvitation = true →
        s1.invitationCode = some c →
        callbackHandler (some ()) s1
          = ({ s1 with pendingInvitation := false,
                       requiresInvitationCode := true },
             .redirect 302
               ("/complete-invitation?code=" ++ encodeURIComponent c)))
    ∧ (∀ s1 : AppSession, s1.pendingInvitation = true →
        s1.invitationCode = none →
        callbackHandler (some ()) s1
          = ({ s1 with pendingInvitation := false,
                       requiresInvitationCode := true },
             .redirect 302 "/complete-invitation"))
    ∧ (∀ s1 : AppSession, s1.pendingInvitation = false →
        callbackHandler (some ()) s1 = (s1, .redirect 302 "/")) := by
  refine ⟨?_, ?_, ?_, ?_, ?_, ?_, ?_, ?_⟩
  · simp [loginHandler, hc]
  · simp [loginHandler, hc]
  · simp [loginHandler, hc]
  · simp [loginHandler]
  · simp [loginHandler]
  · intro s1 hp hcode
    simp [callbackHandler, hp, hcode, hc]
  · intro s1 hp hcode
    simp [callbackHandler, hp, hcode]
  · intro s1 hp
    simp [callbackHandler, hp]

/-- Witness for invitation_login_flow: code AB stored, then the callback
flips the flags and redirects with code=AB. -/
theorem invitation_login_flow_witness :
    callbackHandler (some ()) ⟨true, some "AB", false⟩
      = (⟨false, some "AB", true⟩,
         .redirect 302 "/complete-invitation?code=AB") :=
  (invitation_login_flow "AB" AppSession.initial
    (by decide)).2.2.2.2.2.1 ⟨true, some "AB", false⟩ rfl rfl
